import Mathlib

/-!
# Verification of the timecode-to-SRT converter

A shallow embedding of `script.js` (timecode-to-SRT converter).  Strings are
modelled as `List Char`; the JavaScript regular expression
`/(\d{1,2}[;:]\d{1,2}[;:]\d{1,2}[;:]\d{1,2})\s*[-–—]\s*(\d{1,2}...)/` is
modelled by a deterministic maximal-munch matcher (`matchPairAt`, `findMatch`),
which agrees with the backtracking regex semantics for this pattern because
every quantified atom's character class is disjoint from the first character
admitted by its continuation (so a shorter munch always fails immediately).
The frame rate is a rational number; `Math.round(x)` is `⌊x + 1/2⌋`, computed
on the numerator/denominator of the rational (see `framesToMilliseconds_eq`).
-/

namespace TC

/-- Characters of a Lean string literal, used to write concrete inputs. -/
def str (s : String) : List Char := s.data

/-- `\d` of the JavaScript regex: an ASCII decimal digit. -/
def isDigitCh (c : Char) : Bool := decide (48 ≤ c.toNat ∧ c.toNat ≤ 57)

/-- The component separators accepted by the converter: `;` or `:`. -/
def isSepCh (c : Char) : Bool := c == ';' || c == ':'

/-- The dash-like separators of the timecode pair: hyphen, en-dash, em-dash. -/
def isDashCh (c : Char) : Bool := c == '-' || c == '–' || c == '—'

/-- `\s` of the JavaScript regex / the character set removed by
`String.prototype.trim`: ECMAScript WhiteSpace and LineTerminator. -/
def isJsWS (c : Char) : Bool :=
  decide (c.toNat = 9 ∨ c.toNat = 10 ∨ c.toNat = 11 ∨ c.toNat = 12 ∨ c.toNat = 13 ∨
    c.toNat = 32 ∨ c.toNat = 160 ∨ c.toNat = 5760 ∨
    (8192 ≤ c.toNat ∧ c.toNat ≤ 8202) ∨ c.toNat = 8232 ∨ c.toNat = 8233 ∨
    c.toNat = 8239 ∨ c.toNat = 8287 ∨ c.toNat = 12288 ∨ c.toNat = 65279)

/-- `String.prototype.trim`. -/
def jsTrim (l : List Char) : List Char :=
  ((l.dropWhile isJsWS).reverse.dropWhile isJsWS).reverse

/-- `String.prototype.split` on a single-character class (as used with
`split(/[;:]/)` and `split('\n')`): JavaScript semantics, so `""` splits to
`[""]` and separators at the ends produce empty fragments. -/
def splitP (p : Char → Bool) : List Char → List (List Char)
  | [] => [[]]
  | c :: rest =>
    if p c then [] :: splitP p rest
    else
      match splitP p rest with
      | [] => [[c]]
      | g :: gs => (c :: g) :: gs

/-- `input.trim().split('\n')`. -/
def splitNL (l : List Char) : List (List Char) := splitP (fun c => c == '\n') l

/-- `String.prototype.padStart(n, '0')`. -/
def padStart (n : Nat) (l : List Char) : List Char :=
  if n ≤ l.length then l else List.replicate (n - l.length) '0' ++ l

/-- Is `pre` a prefix of `l` (character by character)? -/
def leadsWith : List Char → List Char → Bool
  | [], _ => true
  | _ :: _, [] => false
  | a :: as, b :: bs => a == b && leadsWith as bs

/-- `String.prototype.indexOf`: index of the first occurrence of `needle`. -/
def firstIdxOfSub (needle : List Char) : List Char → Option Nat
  | [] => if leadsWith needle [] then some 0 else none
  | c :: t =>
    if leadsWith needle (c :: t) then some 0
    else (firstIdxOfSub needle t).map (· + 1)

/-- `Array.prototype.join('\n')`. -/
def joinNL : List (List Char) → List Char
  | [] => []
  | [t] => t
  | t :: ts => t ++ '\n' :: joinNL ts

/-- The decimal digit character for `n % 10`. -/
def digitCh (n : Nat) : Char :=
  if n = 0 then '0' else if n = 1 then '1' else if n = 2 then '2'
  else if n = 3 then '3' else if n = 4 then '4' else if n = 5 then '5'
  else if n = 6 then '6' else if n = 7 then '7' else if n = 8 then '8' else '9'

/-- Decimal digits of a positive number, most significant first (with fuel). -/
def natDigits : Nat → Nat → List Char
  | 0, _ => []
  | fuel + 1, n => if n = 0 then [] else natDigits fuel (n / 10) ++ [digitCh (n % 10)]

/-- `Number.prototype.toString` for a non-negative integer. -/
def natToChars (n : Nat) : List Char := if n = 0 then ['0'] else natDigits (n + 1) n

/-- `Number.prototype.toString` for an integer. -/
def intToChars (z : Int) : List Char :=
  if z < 0 then '-' :: natToChars z.natAbs else natToChars z.natAbs

/-- Value of a list of decimal digit characters. -/
def digitsVal (l : List Char) : Nat := l.foldl (fun a c => a * 10 + (c.toNat - 48)) 0

/-- `parseInt(s, 10)`: skip leading whitespace, optional sign, then the longest
decimal-digit prefix; `none` models `NaN` (no digits found). -/
def jsParseInt (l : List Char) : Option Int :=
  match l.dropWhile isJsWS with
  | [] => none
  | c :: r =>
    if c = '-' then
      match r.takeWhile isDigitCh with
      | [] => none
      | ds => some (-(digitsVal ds : Int))
    else if c = '+' then
      match r.takeWhile isDigitCh with
      | [] => none
      | ds => some ((digitsVal ds : Int))
    else
      match (c :: r).takeWhile isDigitCh with
      | [] => none
      | ds => some ((digitsVal ds : Int))

/-- `Math.round((frames / fps) * 1000)`, i.e. `⌊frames / fps * 1000 + 1/2⌋`,
computed in integer arithmetic on `fps.num`/`fps.den` (the Mathlib rational
field operations do not reduce in the kernel); `framesToMilliseconds_eq`
proves it equal to the rounded rational for every positive `fps`. -/
def framesToMilliseconds (frames : Int) (fps : ℚ) : Int :=
  (2 * frames * 1000 * fps.den + fps.num) / (2 * fps.num)

/-- `convertTimecode`: split on `;`/`:`, require exactly 4 components, pad
h/m/s to 2 digits, convert the frame component to zero-padded milliseconds.
`none` models the thrown `Invalid timecode format` error; a `NaN` frame count
renders as `"NaN"` exactly as in JavaScript. -/
def convertTimecode (tc : List Char) (fps : ℚ) : Option (List Char) :=
  match splitP isSepCh tc with
  | [a, b, c, d] =>
    let ms : List Char :=
      match jsParseInt d with
      | some n => padStart 3 (intToChars (framesToMilliseconds n fps))
      | none => str "NaN"
    some (padStart 2 a ++ ':' :: padStart 2 b ++ ':' :: padStart 2 c ++ ',' :: ms)
  | _ => none

/-- `\d{1,2}` (greedy): one or two decimal digits, maximal munch. -/
def munchD12 : List Char → Option (List Char × List Char)
  | [] => none
  | c :: rest =>
    if isDigitCh c then
      match rest with
      | [] => some ([c], [])
      | c2 :: rest2 => if isDigitCh c2 then some ([c, c2], rest2) else some ([c], rest)
    else none

/-- `[;:]`: one separator character. -/
def munchSep : List Char → Option (Char × List Char)
  | [] => none
  | c :: rest => if isSepCh c then some (c, rest) else none

/-- `[-–—]`: one dash-like character. -/
def munchDash : List Char → Option (Char × List Char)
  | [] => none
  | c :: rest => if isDashCh c then some (c, rest) else none

/-- `\s*` (greedy): maximal run of whitespace. -/
def munchWS : List Char → List Char × List Char
  | [] => ([], [])
  | c :: rest =>
    if isJsWS c then
      let p := munchWS rest
      (c :: p.1, p.2)
    else ([], c :: rest)

/-- One captured timecode `\d{1,2}[;:]\d{1,2}[;:]\d{1,2}[;:]\d{1,2}`:
returns the matched characters and the remaining input. -/
def matchTimecode (l : List Char) : Option (List Char × List Char) :=
  (munchD12 l).bind fun p1 =>
  (munchSep p1.2).bind fun q1 =>
  (munchD12 q1.2).bind fun p2 =>
  (munchSep p2.2).bind fun q2 =>
  (munchD12 q2.2).bind fun p3 =>
  (munchSep p3.2).bind fun q3 =>
  (munchD12 q3.2).map fun p4 =>
  (p1.1 ++ q1.1 :: p2.1 ++ q2.1 :: p3.1 ++ q3.1 :: p4.1, p4.2)

/-- The whole `timecodePattern` anchored at the start of `l`; on success
returns the two captures (`match[1]`, `match[2]`). -/
def matchPairAt (l : List Char) : Option (List Char × List Char) :=
  (matchTimecode l).bind fun t1 =>
  (munchDash (munchWS t1.2).2).bind fun dq =>
  (matchTimecode (munchWS dq.2).2).map fun t2 => (t1.1, t2.1)

/-- `line.match(timecodePattern)`: leftmost match in the line. -/
def findMatch : List Char → Option (List Char × List Char)
  | [] => matchPairAt []
  | c :: t =>
    match matchPairAt (c :: t) with
    | some m => some m
    | none => findMatch t

/-- `line.substring(line.indexOf(match[2]) + match[2].length)` — note the
first-occurrence `indexOf`, not the match position. An absent occurrence
(`indexOf` returning `-1`) gives `substring(-1 + length)`, clamped at 0. -/
def afterCap (line cap2 : List Char) : List Char :=
  match firstIdxOfSub cap2 line with
  | some k => line.drop (k + cap2.length)
  | none => line.drop (cap2.length - 1)

/-- One subtitle cue: converted start/end timestamps and the joined text. -/
structure Subtitle where
  startTime : List Char
  endTime : List Char
  text : List Char
  deriving DecidableEq, Repr

/-- The errors thrown/reported by the converter: the empty-input status
message, the wrapped `Error parsing timecode on line N` error, and the
`No valid timecodes found` error. -/
inductive JsError where
  | emptyInput
  | malformedTimecode (lineNo : Nat)
  | noTimecodesFound
  deriving DecidableEq, Repr

instance {ε α : Type} [DecidableEq ε] [DecidableEq α] : DecidableEq (Except ε α) := fun a b =>
  match a, b with
  | .ok x, .ok y => if h : x = y then .isTrue (by rw [h]) else .isFalse (by simp [h])
  | .error e, .error f => if h : e = f then .isTrue (by rw [h]) else .isFalse (by simp [h])
  | .ok _, .error _ => .isFalse (by simp)
  | .error _, .ok _ => .isFalse (by simp)

/-- The mutable state of the scanning loop in `parseAndConvert`:
`subtitles`, `currentSubtitle` (start/end times), `subtitleText`. -/
structure ScanState where
  subs : List Subtitle
  cur : Option (List Char × List Char)
  txt : List (List Char)
  deriving DecidableEq, Repr

/-- Build a subtitle from the in-progress pair and accumulated text lines. -/
def mkSub (p : List Char × List Char) (txt : List (List Char)) : Subtitle :=
  ⟨p.1, p.2, joinNL txt⟩

/-- The empty-line branch: save the current subtitle if it has text
(clearing both `currentSubtitle` and `subtitleText`). -/
def saveOnBlank (st : ScanState) : ScanState :=
  match st.cur with
  | some p => if st.txt = [] then st else ⟨st.subs ++ [mkSub p st.txt], none, []⟩
  | none => st

/-- The save-previous step on a timecode line: push the current subtitle if it
has text and clear `subtitleText` (the current pair is overwritten next). -/
def saveOnMatch (st : ScanState) : ScanState :=
  match st.cur with
  | some p => if st.txt = [] then st else ⟨st.subs ++ [mkSub p st.txt], st.cur, []⟩
  | none => st

/-- The save step after the loop ("don't forget the last subtitle"). -/
def endFlush (st : ScanState) : List Subtitle :=
  match st.cur with
  | some p => if st.txt = [] then st.subs else st.subs ++ [mkSub p st.txt]
  | none => st.subs

/-- The body of the `for` loop of `parseAndConvert` for source line `i`
(0-based): trim, dispatch on blank / timecode-pair / text line. -/
def processLine (fps : ℚ) (i : Nat) (st : ScanState) (rawLine : List Char) :
    Except JsError ScanState :=
  let line := jsTrim rawLine
  if line = [] then .ok (saveOnBlank st)
  else
    match findMatch line with
    | some (cap1, cap2) =>
      let st1 := saveOnMatch st
      match convertTimecode cap1 fps, convertTimecode cap2 fps with
      | some ts, some te =>
        let after := jsTrim (afterCap line cap2)
        .ok { subs := st1.subs, cur := some (ts, te),
              txt := if after = [] then st1.txt else st1.txt ++ [after] }
      | _, _ => .error (.malformedTimecode (i + 1))
    | none =>
      match st.cur with
      | some _ => .ok { st with txt := st.txt ++ [line] }
      | none => .ok st

/-- The scanning loop over the lines, threading the state. -/
def scanLines (fps : ℚ) : List (List Char) → Nat → ScanState → Except JsError ScanState
  | [], _, st => .ok st
  | l :: rest, i, st =>
    match processLine fps i st l with
    | .ok st' => scanLines fps rest (i + 1) st'
    | .error e => .error e

/-- The full scan of `parseAndConvert`: split into lines, run the loop from
the empty state, flush the last subtitle. -/
def scanAll (input : List Char) (fps : ℚ) : Except JsError (List Subtitle) :=
  match scanLines fps (splitNL (jsTrim input)) 0 ⟨[], none, []⟩ with
  | .ok st => .ok (endFlush st)
  | .error e => .error e

/-- The completed cue list of a scan (empty when the scan errors). -/
def completedCues (input : List Char) (fps : ℚ) : List Subtitle :=
  match scanAll input fps with
  | .ok subs => subs
  | .error _ => []

/-- The SRT emission loop: 1-based index, ` --> ` timing line, text, blank. -/
def emitSubs : List Subtitle → Nat → List Char
  | [], _ => []
  | sub :: rest, i =>
    natToChars (i + 1) ++ '\n' ::
      (sub.startTime ++ str " --> " ++ sub.endTime) ++ '\n' ::
      sub.text ++ '\n' :: '\n' :: emitSubs rest (i + 1)

/-- `parseAndConvert`: scan, fail with `noTimecodesFound` on an empty cue
list, otherwise emit and trim. -/
def parseAndConvert (input : List Char) (fps : ℚ) : Except JsError (List Char) :=
  match scanAll input fps with
  | .error e => .error e
  | .ok subs =>
    if subs = [] then .error .noTimecodesFound
    else .ok (jsTrim (emitSubs subs 0))

/-- `convertToSRT` (the pure core of the main conversion function): trim the
raw input, reject whitespace-only input, then parse and convert. -/
def convertToSRT (input : List Char) (fps : ℚ) : Except JsError (List Char) :=
  if jsTrim input = [] then .error .emptyInput
  else parseAndConvert (jsTrim input) fps

/-! ## Character-class facts -/

theorem digit_not_sep {c : Char} (h : isDigitCh c = true) : isSepCh c = false := by
  simp only [isSepCh, Bool.or_eq_false_iff, beq_eq_false_iff_ne, ne_eq]
  constructor <;> (rintro rfl; exact absurd h (by decide))

theorem sep_not_digit {c : Char} (h : isSepCh c = true) : isDigitCh c = false := by
  simp only [isSepCh, Bool.or_eq_true, beq_iff_eq] at h
  rcases h with rfl | rfl <;> decide

theorem digit_not_ws {c : Char} (h : isDigitCh c = true) : isJsWS c = false := by
  simp only [isDigitCh, decide_eq_true_eq] at h
  simp only [isJsWS, decide_eq_false_iff_not]
  omega

theorem ws_not_digit {c : Char} (h : isJsWS c = true) : isDigitCh c = false := by
  simp only [isJsWS, decide_eq_true_eq] at h
  simp only [isDigitCh, decide_eq_false_iff_not]
  omega

theorem dash_not_digit {c : Char} (h : isDashCh c = true) : isDigitCh c = false := by
  simp only [isDashCh, Bool.or_eq_true, beq_iff_eq] at h
  rcases h with (rfl | rfl) | rfl <;> decide

theorem dash_not_ws {c : Char} (h : isDashCh c = true) : isJsWS c = false := by
  simp only [isDashCh, Bool.or_eq_true, beq_iff_eq] at h
  rcases h with (rfl | rfl) | rfl <;> decide

theorem sep_not_ws {c : Char} (h : isSepCh c = true) : isJsWS c = false := by
  simp only [isSepCh, Bool.or_eq_true, beq_iff_eq] at h
  rcases h with rfl | rfl <;> decide

/-! ## List and parsing lemmas -/

theorem takeWhile_all {p : Char → Bool} {l : List Char} (h : ∀ c ∈ l, p c = true) :
    l.takeWhile p = l := by
  induction l with
  | nil => rfl
  | cons c t ih =>
    rw [List.takeWhile_cons, if_pos (h c (by simp))]
    exact congrArg _ (ih fun x hx => h x (by simp [hx]))

theorem splitP_nosep {p : Char → Bool} {l : List Char} (h : ∀ c ∈ l, p c = false) :
    splitP p l = [l] := by
  induction l with
  | nil => rfl
  | cons c t ih =>
    have ht := ih fun x hx => h x (by simp [hx])
    simp [splitP, h c (by simp), ht]

theorem splitP_append {p : Char → Bool} {a : List Char} (r : List Char) {s : Char}
    (ha : ∀ c ∈ a, p c = false) (hs : p s = true) :
    splitP p (a ++ s :: r) = a :: splitP p r := by
  induction a with
  | nil => simp [splitP, hs]
  | cons c t ih =>
    have ih' := ih fun x hx => ha x (by simp [hx])
    simp [splitP, ha c (by simp), ih']

theorem jsParseInt_digits {d : List Char} (hd : ∀ c ∈ d, isDigitCh c = true)
    (h0 : d ≠ []) : jsParseInt d = some ((digitsVal d : ℤ)) := by
  match d, h0 with
  | c :: r, _ =>
    have hc : isDigitCh c = true := hd c (by simp)
    have hws : isJsWS c = false := digit_not_ws hc
    have hminus : ¬(c = '-') := by rintro rfl; exact absurd hc (by decide)
    have hplus : ¬(c = '+') := by rintro rfl; exact absurd hc (by decide)
    have htake : (c :: r).takeWhile isDigitCh = c :: r := takeWhile_all hd
    simp only [jsParseInt, List.dropWhile_cons, hws, if_false, Bool.false_eq_true,
      if_neg hminus, if_neg hplus, htake]

/-- The integer-arithmetic millisecond computation is exactly
`Math.round((frames / fps) * 1000) = ⌊frames / fps * 1000 + 1/2⌋` for every
positive frame rate. -/
theorem framesToMilliseconds_eq (frames : ℤ) (fps : ℚ) (h : 0 < fps) :
    framesToMilliseconds frames fps = ⌊(frames : ℚ) / fps * 1000 + 1 / 2⌋ := by
  have hnum : 0 < fps.num := Rat.num_pos.mpr h
  have hfps0 : fps ≠ 0 := ne_of_gt h
  have hden0 : (fps.den : ℚ) ≠ 0 := Nat.cast_ne_zero.mpr fps.den_nz
  have hrep : (fps.num : ℚ) / (fps.den : ℚ) = fps := Rat.num_div_den fps
  have hmul : fps * (fps.den : ℚ) = (fps.num : ℚ) := by
    nth_rewrite 1 [← hrep]
    exact div_mul_cancel₀ _ hden0
  have hdiv : (fps.num : ℚ) / fps = (fps.den : ℚ) := by
    rw [div_eq_iff hfps0]
    linear_combination -hmul
  have hDnat : (((2 * fps.num).toNat : ℕ) : ℚ) = ((2 * fps.num : ℤ) : ℚ) := by
    have h2 : ((2 * fps.num).toNat : ℤ) = 2 * fps.num := Int.toNat_of_nonneg (by omega)
    exact_mod_cast congrArg (fun z : ℤ => (z : ℚ)) h2
  have hDQ0 : ((2 * fps.num : ℤ) : ℚ) ≠ 0 :=
    Int.cast_ne_zero.mpr (by omega)
  have key : (frames : ℚ) / fps * 1000 + 1 / 2 =
      ((2 * frames * 1000 * (fps.den : ℤ) + fps.num : ℤ) : ℚ) /
        (((2 * fps.num).toNat : ℕ) : ℚ) := by
    rw [hDnat, eq_div_iff hDQ0]
    push_cast
    linear_combination (2000 * (frames : ℚ)) * hdiv
  rw [key, Rat.floor_intCast_div_natCast]
  have hD2 : ((2 * fps.num).toNat : ℤ) = 2 * fps.num :=
    Int.toNat_of_nonneg (by omega)
  rw [hD2]
  rfl

/-! ## Claim theorems: concrete conversions -/

/-- C1: the spec's worked example at fps = 24 produces exactly two cues with
the stated timing lines and texts, emitted with 1-based indices, the
` --> ` separator, and trailing whitespace trimmed. -/
theorem c1_example_conversion :
    completedCues
        (str "00;00;03;15 - 00;00;06;20\nHello world\n\n00;00;06;21 - 00;00;09;10\nSecond line")
        24 =
      [⟨str "00:00:03,625", str "00:00:06,833", str "Hello world"⟩,
       ⟨str "00:00:06,875", str "00:00:09,417", str "Second line"⟩] ∧
    convertToSRT
        (str "00;00;03;15 - 00;00;06;20\nHello world\n\n00;00;06;21 - 00;00;09;10\nSecond line")
        24 =
      .ok (str "1\n00:00:03,625 --> 00:00:06,833\nHello world\n\n2\n00:00:06,875 --> 00:00:09,417\nSecond line") := by
  constructor <;> decide

/-- C3 (code bug): on the line `0;0;3;4 - 0;0;3;4` no text follows the second
timecode, yet the emitted cue's first text line is `- 0;0;3;4` — the dash and
the second timecode leak into the text because the code locates `match[2]` by
`indexOf` (first occurrence, here position 0) instead of its match position. -/
theorem c3_trailing_text_bug :
    convertToSRT (str "0;0;3;4 - 0;0;3;4\nHello") 24 =
      .ok (str "1\n00:00:03,167 --> 00:00:03,167\n- 0;0;3;4\nHello") := by
  decide

/-- C4 counterexample: on the spec's own example of a 3-component timecode the
converter does NOT fail with a malformed-timecode error — the line simply
never matches the timecode pattern, so conversion fails with
`noTimecodesFound` instead. -/
theorem c4_counterexample :
    convertToSRT (str "00;00;03 - 00;00;06;20") 24 = .error .noTimecodesFound := by
  decide

/-- C4 amended: a line containing a 3-component first timecode does not match
the timecode-pair pattern at all, so (absent other timecode lines) conversion
fails with `noTimecodesFound`, not with a malformed-timecode error, and no
partial document is produced. -/
theorem c4_amended_three_components :
    findMatch (str "00;00;03 - 00;00;06;20") = none ∧
    convertToSRT (str "00;00;03 - 00;00;06;20\nsome text") 24 =
      .error .noTimecodesFound := by
  constructor <;> decide

/-- C8 counterexample: a successfully emitted document whose first timestamp,
fed back through the timestamp formatter with the same fps, is rejected
(`Invalid timecode format`: `00:00:01,500` splits into 3 components, not 4)
rather than reproduced. -/
theorem c8_counterexample :
    convertToSRT (str "0;0;1;12 - 0;0;2;0\nHi") 24 =
      .ok (str "1\n00:00:01,500 --> 00:00:02,000\nHi") ∧
    convertTimecode (str "00:00:01,500") 24 = none := by
  constructor <;> decide

/-- C9 counterexample: replacing one `;` of the start timecode by `:` changes
the parse result. With uniform separators the two captures are the identical
string, `indexOf(match[2])` finds position 0, and `- 0;0;3;4` becomes cue
text; with the mixed separator the captures differ and the cue text is only
`Hi`. -/
theorem c9_counterexample :
    convertToSRT (str "0:0;3;4 - 0;0;3;4\nHi") 24 =
      .ok (str "1\n00:00:03,167 --> 00:00:03,167\nHi") ∧
    convertToSRT (str "0;0;3;4 - 0;0;3;4\nHi") 24 =
      .ok (str "1\n00:00:03,167 --> 00:00:03,167\n- 0;0;3;4\nHi") ∧
    str "1\n00:00:03,167 --> 00:00:03,167\nHi" ≠
      str "1\n00:00:03,167 --> 00:00:03,167\n- 0;0;3;4\nHi" := by
  refine ⟨by decide, by decide, by decide⟩

/-- C2: on every 4-component timecode (arbitrary separator-free h/m/s text, a
digit frame field) and every fps > 0, the conversion returns
`pad2 h : pad2 m : pad2 s , pad3 ms` — h/m/s kept verbatim (display pad only,
no range validation) and `ms = round(frames / fps * 1000)`, not clamped. -/
theorem c2_convertTimecode_format (a b c d : List Char) (s1 s2 s3 : Char) (fps : ℚ)
    (ha : ∀ x ∈ a, isSepCh x = false) (hb : ∀ x ∈ b, isSepCh x = false)
    (hc : ∀ x ∈ c, isSepCh x = false)
    (hd : ∀ x ∈ d, isDigitCh x = true) (hd0 : d ≠ [])
    (hs1 : isSepCh s1 = true) (hs2 : isSepCh s2 = true) (hs3 : isSepCh s3 = true)
    (hfps : 0 < fps) :
    convertTimecode (a ++ s1 :: b ++ s2 :: c ++ s3 :: d) fps =
      some (padStart 2 a ++ ':' :: padStart 2 b ++ ':' :: padStart 2 c ++ ',' ::
        padStart 3 (intToChars (framesToMilliseconds (digitsVal d) fps))) ∧
    framesToMilliseconds (digitsVal d) fps = ⌊(digitsVal d : ℚ) / fps * 1000 + 1 / 2⌋ := by
  have hdns : ∀ x ∈ d, isSepCh x = false := fun x hx => digit_not_sep (hd x hx)
  have hsplit : splitP isSepCh (a ++ s1 :: b ++ s2 :: c ++ s3 :: d) = [a, b, c, d] := by
    simp only [List.append_assoc, List.cons_append]
    rw [splitP_append _ ha hs1, splitP_append _ hb hs2, splitP_append _ hc hs3,
      splitP_nosep hdns]
  refine ⟨?_, ?_⟩
  · simp only [convertTimecode, hsplit, jsParseInt_digits hd hd0]
  · have := framesToMilliseconds_eq (digitsVal d) fps hfps
    rw [this]
    push_cast
    rfl

/-- Witness for C2: seconds `75` pass through verbatim and frame 30 at fps 24
yields an unclamped 4-digit millisecond field `1250`. -/
theorem c2_witness :
    convertTimecode (str "0;0;75;30") 24 = some (str "00:00:75,1250") := by
  have h := c2_convertTimecode_format ['0'] ['0'] ['7', '5'] ['3', '0'] ';' ';' ';' 24
    (by decide) (by decide) (by decide) (by decide) (by decide)
    (by decide) (by decide) (by decide) (by norm_num)
  exact h.1.trans (by decide)

/-- Removing JS whitespace from an all-whitespace string leaves nothing. -/
theorem trim_all_ws {l : List Char} (h : ∀ c ∈ l, isJsWS c = true) : jsTrim l = [] := by
  have h1 : l.dropWhile isJsWS = [] := by
    induction l with
    | nil => rfl
    | cons c t ih =>
      rw [List.dropWhile_cons, if_pos (h c (by simp))]
      exact ih fun x hx => h x (by simp [hx])
  simp [jsTrim, h1]

/-- C5: a whitespace-only input fails with the distinct `emptyInput` error
(the parse is never reached — the guard precedes `parseAndConvert`), and this
error differs from both other error forms. -/
theorem c5_empty_input (input : List Char) (fps : ℚ)
    (h : ∀ c ∈ input, isJsWS c = true) :
    convertToSRT input fps = .error .emptyInput ∧
    JsError.emptyInput ≠ JsError.noTimecodesFound ∧
    ∀ n, JsError.emptyInput ≠ JsError.malformedTimecode n := by
  refine ⟨?_, by simp, fun n => by simp⟩
  simp [convertToSRT, trim_all_ws h]

/-- Witness for C5 at a concrete whitespace-only input. -/
theorem c5_witness : convertToSRT (str " \n\t ") 24 = .error .emptyInput :=
  (c5_empty_input (str " \n\t ") 24 (by decide)).1

/-! ## Inversion of the matcher: every capture is a well-formed timecode -/

/-- The shape of every string captured by the timecode sub-pattern: four
non-empty digit groups joined by single separator characters. -/
def TCShape (tc : List Char) : Prop :=
  ∃ d1 s1 d2 s2 d3 s3 d4,
    tc = d1 ++ s1 :: d2 ++ s2 :: d3 ++ s3 :: d4 ∧
    d1 ≠ [] ∧ d2 ≠ [] ∧ d3 ≠ [] ∧ d4 ≠ [] ∧
    (∀ c ∈ d1, isDigitCh c = true) ∧ (∀ c ∈ d2, isDigitCh c = true) ∧
    (∀ c ∈ d3, isDigitCh c = true) ∧ (∀ c ∈ d4, isDigitCh c = true) ∧
    isSepCh s1 = true ∧ isSepCh s2 = true ∧ isSepCh s3 = true

theorem munchD12_inv {l d r : List Char} (h : munchD12 l = some (d, r)) :
    l = d ++ r ∧ d ≠ [] ∧ ∀ c ∈ d, isDigitCh c = true := by
  match l with
  | [] => simp [munchD12] at h
  | [c] =>
    by_cases hc : isDigitCh c = true <;> simp [munchD12, hc] at h
    obtain ⟨rfl, rfl⟩ := h
    simp [hc]
  | c :: c2 :: rest2 =>
    by_cases hc : isDigitCh c = true
    · by_cases hc2 : isDigitCh c2 = true <;> simp [munchD12, hc, hc2] at h <;>
        obtain ⟨rfl, rfl⟩ := h <;> simp [hc, hc2]
    · simp [munchD12, hc] at h

theorem munchSep_inv {l r : List Char} {s : Char} (h : munchSep l = some (s, r)) :
    l = s :: r ∧ isSepCh s = true := by
  match l with
  | [] => simp [munchSep] at h
  | c :: rest =>
    by_cases hc : isSepCh c = true <;> simp [munchSep, hc] at h
    obtain ⟨rfl, rfl⟩ := h
    simp [hc]

theorem matchTimecode_inv {l tc r : List Char} (h : matchTimecode l = some (tc, r)) :
    TCShape tc := by
  simp only [matchTimecode, Option.bind_eq_some, Option.map_eq_some'] at h
  obtain ⟨⟨d1, r1⟩, h1, ⟨s1, r2⟩, h2, ⟨d2, r3⟩, h3, ⟨s2, r4⟩, h4,
    ⟨d3, r5⟩, h5, ⟨s3, r6⟩, h6, ⟨d4, r7⟩, h7, heq⟩ := h
  obtain ⟨heq1, -⟩ := Prod.mk.injEq .. ▸ heq
  obtain ⟨-, hd1, hdig1⟩ := munchD12_inv h1
  obtain ⟨-, hs1⟩ := munchSep_inv h2
  obtain ⟨-, hd2, hdig2⟩ := munchD12_inv h3
  obtain ⟨-, hs2⟩ := munchSep_inv h4
  obtain ⟨-, hd3, hdig3⟩ := munchD12_inv h5
  obtain ⟨-, hs3⟩ := munchSep_inv h6
  obtain ⟨-, hd4, hdig4⟩ := munchD12_inv h7
  exact ⟨d1, s1, d2, s2, d3, s3, d4, heq1.symm,
    hd1, hd2, hd3, hd4, hdig1, hdig2, hdig3, hdig4, hs1, hs2, hs3⟩

theorem matchPairAt_inv {l c1 c2 : List Char} (h : matchPairAt l = some (c1, c2)) :
    TCShape c1 ∧ TCShape c2 := by
  simp only [matchPairAt, Option.bind_eq_some, Option.map_eq_some'] at h
  obtain ⟨⟨t1, r1⟩, h1, ⟨dc, r2⟩, h2, ⟨t2, r3⟩, h3, heq⟩ := h
  obtain ⟨he1, he2⟩ := Prod.mk.injEq .. ▸ heq
  exact ⟨he1 ▸ matchTimecode_inv h1, he2 ▸ matchTimecode_inv h3⟩

theorem findMatch_inv {l c1 c2 : List Char} (h : findMatch l = some (c1, c2)) :
    TCShape c1 ∧ TCShape c2 := by
  induction l with
  | nil => exact matchPairAt_inv h
  | cons c t ih =>
    rw [findMatch] at h
    cases hm : matchPairAt (c :: t) with
    | some m =>
      rw [hm] at h
      cases h
      exact matchPairAt_inv hm
    | none =>
      rw [hm] at h
      exact ih h

/-- A captured timecode splits into exactly 4 components (the first three
separator-free, the last a non-empty digit group). -/
theorem TCShape_split4 {tc : List Char} (h : TCShape tc) :
    ∃ d1 d2 d3 d4, splitP isSepCh tc = [d1, d2, d3, d4] ∧
      (∀ c ∈ d1, isSepCh c = false) ∧ (∀ c ∈ d2, isSepCh c = false) ∧
      (∀ c ∈ d3, isSepCh c = false) ∧ d4 ≠ [] ∧ (∀ c ∈ d4, isDigitCh c = true) := by
  obtain ⟨d1, s1, d2, s2, d3, s3, d4, rfl, hd1, hd2, hd3, hd4,
    hdig1, hdig2, hdig3, hdig4, hs1, hs2, hs3⟩ := h
  refine ⟨d1, d2, d3, d4, ?_, fun x hx => digit_not_sep (hdig1 x hx),
    fun x hx => digit_not_sep (hdig2 x hx),
    fun x hx => digit_not_sep (hdig3 x hx), hd4, hdig4⟩
  simp only [List.append_assoc, List.cons_append]
  rw [splitP_append _ (fun x hx => digit_not_sep (hdig1 x hx)) hs1,
    splitP_append _ (fun x hx => digit_not_sep (hdig2 x hx)) hs2,
    splitP_append _ (fun x hx => digit_not_sep (hdig3 x hx)) hs3,
    splitP_nosep (fun x hx => digit_not_sep (hdig4 x hx))]

theorem digitCh_not_sep (n : Nat) : isSepCh (digitCh n) = false := by
  unfold digitCh
  repeat' split
  all_goals decide

theorem natDigits_not_sep (fuel n : Nat) : ∀ c ∈ natDigits fuel n, isSepCh c = false := by
  induction fuel generalizing n with
  | zero => simp [natDigits]
  | succ fuel ih =>
    intro c hc
    rw [natDigits] at hc
    by_cases hn : n = 0
    · simp [hn] at hc
    · rw [if_neg hn] at hc
      rcases List.mem_append.mp hc with h | h
      · exact ih _ c h
      · simp at h
        exact h ▸ digitCh_not_sep _

theorem intToChars_not_sep (z : Int) : ∀ c ∈ intToChars z, isSepCh c = false := by
  intro c hc
  unfold intToChars natToChars at hc
  split at hc
  · simp at hc
    rcases hc with rfl | hc
    · decide
    · split at hc
      · simp at hc; subst hc; decide
      · exact natDigits_not_sep _ _ c hc
  · split at hc
    · simp at hc; subst hc; decide
    · exact natDigits_not_sep _ _ c hc

theorem padStart_not_sep {l : List Char} (n : Nat)
    (h : ∀ c ∈ l, isSepCh c = false) : ∀ c ∈ padStart n l, isSepCh c = false := by
  intro c hc
  unfold padStart at hc
  split at hc
  · exact h c hc
  · rcases List.mem_append.mp hc with hrep | hl
    · rw [List.eq_of_mem_replicate hrep]; decide
    · exact h c hl

/-- Converting a captured timecode always succeeds, and the result splits into
exactly 3 components on `;`/`:` (two `:` separators; the `,` is none). -/
theorem TCShape_convert {tc : List Char} (h : TCShape tc) (fps : ℚ) :
    ∃ out, convertTimecode tc fps = some out ∧ (splitP isSepCh out).length = 3 := by
  obtain ⟨d1, d2, d3, d4, hsplit, hf1, hf2, hf3, hd4, hdig4⟩ := TCShape_split4 h
  have hparse := jsParseInt_digits hdig4 hd4
  have hconv : convertTimecode tc fps =
      some (padStart 2 d1 ++ ':' :: padStart 2 d2 ++ ':' :: padStart 2 d3 ++ ',' ::
        padStart 3 (intToChars (framesToMilliseconds (digitsVal d4) fps))) := by
    simp only [convertTimecode, hsplit, hparse]
  refine ⟨_, hconv, ?_⟩
  have hcolon : isSepCh ':' = true := by decide
  have hlast : ∀ c ∈ padStart 2 d3 ++ ',' ::
      padStart 3 (intToChars (framesToMilliseconds (digitsVal d4) fps)),
      isSepCh c = false := by
    intro c hc
    rcases List.mem_append.mp hc with hm | hm
    · exact padStart_not_sep 2 hf3 c hm
    · rcases List.mem_cons.mp hm with rfl | hm
      · decide
      · exact padStart_not_sep 3 (intToChars_not_sep _) c hm
  simp only [List.append_assoc, List.cons_append]
  rw [splitP_append _ (padStart_not_sep 2 hf1) hcolon,
    splitP_append _ (padStart_not_sep 2 hf2) hcolon, splitP_nosep hlast]
  rfl

/-- C10: every pair of sub-matches returned by the line matcher consists of
strings that split into exactly 4 components on `;`/`:`, so the
`Invalid timecode format` branch of the timestamp converter is unreachable
from the scanner. -/
theorem c10_captures_well_formed (l cap1 cap2 : List Char) (fps : ℚ)
    (h : findMatch l = some (cap1, cap2)) :
    (splitP isSepCh cap1).length = 4 ∧ (splitP isSepCh cap2).length = 4 ∧
    (convertTimecode cap1 fps).isSome = true ∧
    (convertTimecode cap2 fps).isSome = true := by
  obtain ⟨h1, h2⟩ := findMatch_inv h
  obtain ⟨a1, b1, e1, f1, hs1, -⟩ := TCShape_split4 h1
  obtain ⟨a2, b2, e2, f2, hs2, -⟩ := TCShape_split4 h2
  obtain ⟨o1, ho1, -⟩ := TCShape_convert h1 fps
  obtain ⟨o2, ho2, -⟩ := TCShape_convert h2 fps
  exact ⟨by simp [hs1], by simp [hs2], by simp [ho1], by simp [ho2]⟩

/-- Witness for C10 on a concrete matched line. -/
theorem c10_witness :
    (splitP isSepCh (str "1;2;3;4")).length = 4 ∧
    (splitP isSepCh (str "5;6;7;8")).length = 4 ∧
    (convertTimecode (str "1;2;3;4") 30).isSome = true ∧
    (convertTimecode (str "5;6;7;8") 30).isSome = true :=
  c10_captures_well_formed (str "1;2;3;4 - 5;6;7;8") (str "1;2;3;4") (str "5;6;7;8") 30
    (by decide)

/-! ## The scan loop: totality and invariants -/

/-- Processing a line never throws: the malformed-timecode branch is
unreachable because every capture is a well-formed timecode. -/
theorem processLine_ok (fps : ℚ) (i : Nat) (st : ScanState) (l : List Char) :
    ∃ st', processLine fps i st l = .ok st' := by
  by_cases hb : jsTrim l = []
  · exact ⟨_, by simp only [processLine, if_pos hb]; rfl⟩
  · cases hm : findMatch (jsTrim l) with
    | none =>
      cases hc : st.cur with
      | none => exact ⟨_, by simp only [processLine, if_neg hb, hm, hc]; rfl⟩
      | some p => exact ⟨_, by simp only [processLine, if_neg hb, hm, hc]; rfl⟩
    | some m =>
      obtain ⟨c1, c2⟩ := m
      obtain ⟨sh1, sh2⟩ := findMatch_inv hm
      obtain ⟨o1, ho1, -⟩ := TCShape_convert sh1 fps
      obtain ⟨o2, ho2, -⟩ := TCShape_convert sh2 fps
      exact ⟨_, by simp only [processLine, if_neg hb, hm, ho1, ho2]; rfl⟩

/-- The whole scan loop never throws. -/
theorem scanLines_ok (fps : ℚ) (ls : List (List Char)) : ∀ (i : Nat) (st : ScanState),
    ∃ st', scanLines fps ls i st = .ok st' := by
  induction ls with
  | nil => exact fun i st => ⟨st, rfl⟩
  | cons l rest ih =>
    intro i st
    obtain ⟨st1, h1⟩ := processLine_ok fps i st l
    obtain ⟨st2, h2⟩ := ih (i + 1) st1
    exact ⟨st2, by simp only [scanLines, h1]; exact h2⟩

/-- The scan always completes, producing exactly `completedCues`. -/
theorem scanAll_eq (input : List Char) (fps : ℚ) :
    scanAll input fps = .ok (completedCues input fps) := by
  obtain ⟨st, h⟩ := scanLines_ok fps (splitNL (jsTrim input)) 0 ⟨[], none, []⟩
  simp [scanAll, completedCues, h]

/-- A scan over lines none of which matches the pattern leaves the state
untouched. -/
theorem scanLines_nomatch (fps : ℚ) (ls : List (List Char)) :
    ∀ (i : Nat) (subs0 : List Subtitle) (txt0 : List (List Char)),
    (∀ l ∈ ls, findMatch (jsTrim l) = none) →
    scanLines fps ls i ⟨subs0, none, txt0⟩ = .ok ⟨subs0, none, txt0⟩ := by
  induction ls with
  | nil => intros; rfl
  | cons l rest ih =>
    intro i subs0 txt0 h
    have hl : findMatch (jsTrim l) = none := h l (by simp)
    have hstep : processLine fps i ⟨subs0, none, txt0⟩ l = .ok ⟨subs0, none, txt0⟩ := by
      by_cases hb : jsTrim l = []
      · simp only [processLine, if_pos hb, saveOnBlank]
      · simp only [processLine, if_neg hb, hl]
    simp only [scanLines, hstep]
    exact ih (i + 1) subs0 txt0 fun x hx => h x (by simp [hx])

/-- C6: conversion fails with `noTimecodesFound` exactly when the completed
cue list is empty after the full scan; in particular an input with no
matching line fails with that error. -/
theorem c6_no_timecodes_iff (input : List Char) (fps : ℚ) :
    (parseAndConvert input fps = .error .noTimecodesFound ↔
      completedCues input fps = []) ∧
    ((∀ l ∈ splitNL (jsTrim input), findMatch (jsTrim l) = none) →
      parseAndConvert input fps = .error .noTimecodesFound) := by
  have hP : parseAndConvert input fps =
      (if completedCues input fps = [] then .error .noTimecodesFound
       else .ok (jsTrim (emitSubs (completedCues input fps) 0))) := by
    unfold parseAndConvert
    rw [scanAll_eq input fps]
  constructor
  · rw [hP]
    by_cases hc : completedCues input fps = [] <;> simp [hc]
  · intro hnone
    have hempty : completedCues input fps = [] := by
      have h0 := scanLines_nomatch fps (splitNL (jsTrim input)) 0 [] [] hnone
      simp [completedCues, scanAll, h0, endFlush]
    rw [hP, if_pos hempty]

/-- Witness for C6 on a transcript with no timecode lines. -/
theorem c6_witness :
    parseAndConvert (str "hello world\nno timecodes here") 24 =
      .error .noTimecodesFound :=
  (c6_no_timecodes_iff (str "hello world\nno timecodes here") 24).2 (by decide)

/-! ## The cue invariant: non-empty text, well-shaped timestamps -/

/-- A converted timestamp: splits into 3 components on `;`/`:`. -/
def TsOK (t : List Char) : Prop := (splitP isSepCh t).length = 3

/-- Invariant of the scanning state: every completed cue has non-empty text
and converted (3-component) timestamps, the in-progress pair consists of
converted timestamps, and every accumulated text line is non-empty. -/
def StOK (st : ScanState) : Prop :=
  (∀ sub ∈ st.subs, sub.text ≠ [] ∧ TsOK sub.startTime ∧ TsOK sub.endTime) ∧
  (∀ p, st.cur = some p → TsOK p.1 ∧ TsOK p.2) ∧
  (∀ t ∈ st.txt, t ≠ [])

theorem joinNL_ne_nil {ts : List (List Char)} (h0 : ts ≠ []) (h : ∀ t ∈ ts, t ≠ []) :
    joinNL ts ≠ [] := by
  match ts with
  | [t] => simpa [joinNL] using h t (by simp)
  | t :: t2 :: rest => simp [joinNL]

theorem mkSub_ok {p : List Char × List Char} {txt : List (List Char)}
    (hp : TsOK p.1 ∧ TsOK p.2) (h0 : txt ≠ []) (ht : ∀ t ∈ txt, t ≠ []) :
    (mkSub p txt).text ≠ [] ∧ TsOK (mkSub p txt).startTime ∧ TsOK (mkSub p txt).endTime :=
  ⟨joinNL_ne_nil h0 ht, hp.1, hp.2⟩

theorem saveOnBlank_ok {st : ScanState} (h : StOK st) : StOK (saveOnBlank st) := by
  obtain ⟨hsubs, hcur, htxt⟩ := h
  unfold saveOnBlank
  cases hc : st.cur with
  | none => exact ⟨hsubs, hcur, htxt⟩
  | some p =>
    by_cases ht : st.txt = []
    · simp only [if_pos ht]; exact ⟨hsubs, hcur, htxt⟩
    · simp only [if_neg ht]
      refine ⟨?_, by simp, by simp⟩
      intro sub hsub
      rcases List.mem_append.mp hsub with hm | hm
      · exact hsubs sub hm
      · simp only [List.mem_singleton] at hm
        subst hm
        exact mkSub_ok (hcur p hc) ht htxt

theorem saveOnMatch_ok {st : ScanState} (h : StOK st) : StOK (saveOnMatch st) := by
  obtain ⟨hsubs, hcur, htxt⟩ := h
  unfold saveOnMatch
  cases hc : st.cur with
  | none => exact ⟨hsubs, hcur, htxt⟩
  | some p =>
    by_cases ht : st.txt = []
    · simp only [if_pos ht]; exact ⟨hsubs, hcur, htxt⟩
    · simp only [if_neg ht]
      refine ⟨?_, ?_, by simp⟩
      · intro sub hsub
        rcases List.mem_append.mp hsub with hm | hm
        · exact hsubs sub hm
        · simp only [List.mem_singleton] at hm
          subst hm
          exact mkSub_ok (hcur p hc) ht htxt
      · intro q hq
        simp only [Option.some.injEq] at hq
        exact hq ▸ hcur p hc

theorem processLine_StOK {fps : ℚ} {i : Nat} {st : ScanState} {l : List Char}
    {st' : ScanState} (h : StOK st) (hp : processLine fps i st l = .ok st') :
    StOK st' := by
  by_cases hb : jsTrim l = []
  · simp only [processLine, if_pos hb] at hp
    cases hp
    exact saveOnBlank_ok h
  · cases hm : findMatch (jsTrim l) with
    | none =>
      simp only [processLine, if_neg hb, hm] at hp
      cases hc : st.cur with
      | none =>
        rw [hc] at hp
        cases hp
        exact h
      | some p =>
        rw [hc] at hp
        cases hp
        obtain ⟨hsubs, hcur, htxt⟩ := h
        refine ⟨hsubs, ?_, ?_⟩
        · intro q hq
          simp only [Option.some.injEq] at hq
          exact hq ▸ hcur p hc
        · intro t htm
          rcases List.mem_append.mp htm with hm2 | hm2
          · exact htxt t hm2
          · simp only [List.mem_singleton] at hm2
            subst hm2
            exact hb
    | some m =>
      obtain ⟨c1, c2⟩ := m
      obtain ⟨sh1, sh2⟩ := findMatch_inv hm
      obtain ⟨o1, ho1, hts1⟩ := TCShape_convert sh1 fps
      obtain ⟨o2, ho2, hts2⟩ := TCShape_convert sh2 fps
      simp only [processLine, if_neg hb, hm, ho1, ho2] at hp
      cases hp
      have h1 := saveOnMatch_ok h
      refine ⟨h1.1, ?_, ?_⟩
      · intro p hp2
        simp only [Option.some.injEq] at hp2
        subst hp2
        exact ⟨hts1, hts2⟩
      · intro t htm
        by_cases ha : jsTrim (afterCap (jsTrim l) c2) = []
        · rw [if_pos ha] at htm
          exact h1.2.2 t htm
        · rw [if_neg ha] at htm
          rcases List.mem_append.mp htm with hm2 | hm2
          · exact h1.2.2 t hm2
          · simp only [List.mem_singleton] at hm2
            subst hm2
            exact ha

theorem scanLines_StOK (fps : ℚ) (ls : List (List Char)) :
    ∀ (i : Nat) (st st' : ScanState), StOK st →
    scanLines fps ls i st = .ok st' → StOK st' := by
  induction ls with
  | nil =>
    intro i st st' h hs
    cases hs
    exact h
  | cons l rest ih =>
    intro i st st' h hs
    cases hq : processLine fps i st l with
    | error e =>
      simp only [scanLines, hq] at hs
      cases hs
    | ok st1 =>
      simp only [scanLines, hq] at hs
      exact ih (i + 1) st1 st' (processLine_StOK h hq) hs

theorem endFlush_ok {st : ScanState} (h : StOK st) :
    ∀ sub ∈ endFlush st, sub.text ≠ [] ∧ TsOK sub.startTime ∧ TsOK sub.endTime := by
  obtain ⟨hsubs, hcur, htxt⟩ := h
  unfold endFlush
  cases hc : st.cur with
  | none => exact hsubs
  | some p =>
    by_cases ht : st.txt = []
    · simp only [if_pos ht]; exact hsubs
    · simp only [if_neg ht]
      intro sub hsub
      rcases List.mem_append.mp hsub with hm | hm
      · exact hsubs sub hm
      · simp only [List.mem_singleton] at hm
        subst hm
        exact mkSub_ok (hcur p hc) ht htxt

/-- Every completed cue of any scan has non-empty text and two converted
(3-component) timestamps. -/
theorem completedCues_ok (input : List Char) (fps : ℚ) :
    ∀ sub ∈ completedCues input fps,
      sub.text ≠ [] ∧ TsOK sub.startTime ∧ TsOK sub.endTime := by
  obtain ⟨st, hsc⟩ := scanLines_ok fps (splitNL (jsTrim input)) 0 ⟨[], none, []⟩
  have hinit : StOK ⟨[], none, []⟩ := ⟨by simp, by simp, by simp⟩
  have hok : StOK st := scanLines_StOK fps _ 0 _ st hinit hsc
  have hcc : completedCues input fps = endFlush st := by
    simp [completedCues, scanAll, hsc]
  rw [hcc]
  exact endFlush_ok hok

/-- A 3-component string is rejected by the timestamp converter. -/
theorem TsOK_convert_none {t : List Char} (h : TsOK t) (fps : ℚ) :
    convertTimecode t fps = none := by
  obtain ⟨x, y, z, hs⟩ := List.length_eq_three.mp h
  simp [convertTimecode, hs]

/-- C7: every emitted cue has non-empty text — a timecode-pair line followed
immediately by another timecode-pair line contributes no cue, so the example
input yields exactly one cue and no empty cue. -/
theorem c7_cues_nonempty_text :
    (∀ (input : List Char) (fps : ℚ), ∀ sub ∈ completedCues input fps, sub.text ≠ []) ∧
    completedCues (str "0;0;1;0 - 0;0;2;0\n0;0;3;0 - 0;0;4;0\nHi") 24 =
      [⟨str "00:00:03,000", str "00:00:04,000", str "Hi"⟩] ∧
    convertToSRT (str "0;0;1;0 - 0;0;2;0\n0;0;3;0 - 0;0;4;0\nHi") 24 =
      .ok (str "1\n00:00:03,000 --> 00:00:04,000\nHi") :=
  ⟨fun input fps sub hs => (completedCues_ok input fps sub hs).1, by decide, by decide⟩

/-- Witness for C7's universally quantified part at a concrete cue. -/
theorem c7_witness :
    (⟨str "00:00:03,000", str "00:00:04,000", str "Hi"⟩ : Subtitle).text ≠ [] :=
  c7_cues_nonempty_text.1 (str "0;0;1;0 - 0;0;2;0\n0;0;3;0 - 0;0;4;0\nHi") 24 _ (by decide)

/-- C8 amended: feeding any timing-line timestamp of any successful scan back
through the timestamp formatter fails (with any fps): the emitted
`hh:mm:ss,mmm` string splits into only 3 components on `;`/`:`. -/
theorem c8_roundtrip_rejects (input : List Char) (fps fps2 : ℚ) (sub : Subtitle)
    (h : sub ∈ completedCues input fps) :
    convertTimecode sub.startTime fps2 = none ∧
    convertTimecode sub.endTime fps2 = none := by
  obtain ⟨-, h1, h2⟩ := completedCues_ok input fps sub h
  exact ⟨TsOK_convert_none h1 fps2, TsOK_convert_none h2 fps2⟩

/-- Witness for the amended C8 at the counterexample's document. -/
theorem c8_amended_witness :
    convertTimecode (str "00:00:01,500") 24 = none ∧
    convertTimecode (str "00:00:02,000") 24 = none :=
  c8_roundtrip_rejects (str "0;0;1;12 - 0;0;2;0\nHi") 24 24
    ⟨str "00:00:01,500", str "00:00:02,000", str "Hi"⟩ (by decide)

/-! ## Completeness of the matcher on well-formed pair lines -/

/-- A well-formed timecode component: 1 or 2 decimal digits. -/
def DigitComp (d : List Char) : Prop :=
  d ≠ [] ∧ d.length ≤ 2 ∧ ∀ c ∈ d, isDigitCh c = true

/-- A timecode assembled from components and explicit separators. -/
def mkTC (d1 : List Char) (s1 : Char) (d2 : List Char) (s2 : Char)
    (d3 : List Char) (s3 : Char) (d4 : List Char) : List Char :=
  d1 ++ s1 :: d2 ++ s2 :: d3 ++ s3 :: d4

/-- Is the first character a digit? (`false` on the empty list.) -/
def headIsDigit : List Char → Bool
  | [] => false
  | c :: _ => isDigitCh c

/-- Is the first character whitespace? (`false` on the empty list.) -/
def headIsWS : List Char → Bool
  | [] => false
  | c :: _ => isJsWS c

theorem munchD12_complete {d rest : List Char}
    (h0 : d ≠ []) (h2 : d.length ≤ 2) (hd : ∀ c ∈ d, isDigitCh c = true)
    (hr : headIsDigit rest = false) :
    munchD12 (d ++ rest) = some (d, rest) := by
  match d, h0 with
  | [c], _ =>
    have hc := hd c (by simp)
    match rest with
    | [] => simp [munchD12, hc]
    | r :: rs =>
      have hr' : isDigitCh r = false := hr
      simp [munchD12, hc, hr']
  | [c1, c2], _ =>
    have h1 := hd c1 (by simp)
    have hcc := hd c2 (by simp)
    simp [munchD12, h1, hcc]
  | c1 :: c2 :: c3 :: t, _ => simp at h2

theorem munchWS_complete {w rest : List Char}
    (hw : ∀ c ∈ w, isJsWS c = true) (hr : headIsWS rest = false) :
    munchWS (w ++ rest) = (w, rest) := by
  induction w with
  | nil =>
    match rest with
    | [] => rfl
    | c :: cs =>
      have hc : isJsWS c = false := hr
      simp [munchWS, hc]
  | cons c t ih =>
    have hc := hw c (by simp)
    have iht := ih fun x hx => hw x (by simp [hx])
    simp [munchWS, hc, iht]

theorem headIsDigit_ws_dash {ws1 rest : List Char} {dash : Char}
    (hw : ∀ c ∈ ws1, isJsWS c = true) (hd : isDashCh dash = true) :
    headIsDigit (ws1 ++ dash :: rest) = false := by
  match ws1 with
  | [] => exact dash_not_digit hd
  | c :: t => exact ws_not_digit (hw c (by simp))

theorem headIsWS_digit {d rest : List Char} (h0 : d ≠ [])
    (hd : ∀ c ∈ d, isDigitCh c = true) : headIsWS (d ++ rest) = false := by
  match d, h0 with
  | c :: t, _ => exact digit_not_ws (hd c (by simp))

theorem matchTimecode_complete {d1 d2 d3 d4 rest : List Char} {s1 s2 s3 : Char}
    (hc1 : DigitComp d1) (hc2 : DigitComp d2) (hc3 : DigitComp d3) (hc4 : DigitComp d4)
    (hs1 : isSepCh s1 = true) (hs2 : isSepCh s2 = true) (hs3 : isSepCh s3 = true)
    (hr : headIsDigit rest = false) :
    matchTimecode (d1 ++ (s1 :: (d2 ++ (s2 :: (d3 ++ (s3 :: (d4 ++ rest))))))) =
      some (d1 ++ (s1 :: (d2 ++ (s2 :: (d3 ++ (s3 :: d4))))), rest) := by
  have e1 : munchD12 (d1 ++ (s1 :: (d2 ++ (s2 :: (d3 ++ (s3 :: (d4 ++ rest))))))) =
      some (d1, s1 :: (d2 ++ (s2 :: (d3 ++ (s3 :: (d4 ++ rest)))))) :=
    munchD12_complete hc1.1 hc1.2.1 hc1.2.2 (sep_not_digit hs1)
  have e2 : munchSep (s1 :: (d2 ++ (s2 :: (d3 ++ (s3 :: (d4 ++ rest)))))) =
      some (s1, d2 ++ (s2 :: (d3 ++ (s3 :: (d4 ++ rest))))) := by
    simp [munchSep, hs1]
  have e3 : munchD12 (d2 ++ (s2 :: (d3 ++ (s3 :: (d4 ++ rest))))) =
      some (d2, s2 :: (d3 ++ (s3 :: (d4 ++ rest)))) :=
    munchD12_complete hc2.1 hc2.2.1 hc2.2.2 (sep_not_digit hs2)
  have e4 : munchSep (s2 :: (d3 ++ (s3 :: (d4 ++ rest)))) =
      some (s2, d3 ++ (s3 :: (d4 ++ rest))) := by
    simp [munchSep, hs2]
  have e5 : munchD12 (d3 ++ (s3 :: (d4 ++ rest))) =
      some (d3, s3 :: (d4 ++ rest)) :=
    munchD12_complete hc3.1 hc3.2.1 hc3.2.2 (sep_not_digit hs3)
  have e6 : munchSep (s3 :: (d4 ++ rest)) = some (s3, d4 ++ rest) := by
    simp [munchSep, hs3]
  have e7 : munchD12 (d4 ++ rest) = some (d4, rest) :=
    munchD12_complete hc4.1 hc4.2.1 hc4.2.2 hr
  simp only [matchTimecode, e1, e2, e3, e4, e5, e6, e7, Option.some_bind,
    Option.map_some']
  simp [List.append_assoc]

theorem matchPairAt_complete {d1 d2 d3 d4 e1 e2 e3 e4 ws1 ws2 : List Char}
    {s1 s2 s3 s4 s5 s6 dash : Char}
    (hd1 : DigitComp d1) (hd2 : DigitComp d2) (hd3 : DigitComp d3) (hd4 : DigitComp d4)
    (he1 : DigitComp e1) (he2 : DigitComp e2) (he3 : DigitComp e3) (he4 : DigitComp e4)
    (hs1 : isSepCh s1 = true) (hs2 : isSepCh s2 = true) (hs3 : isSepCh s3 = true)
    (hs4 : isSepCh s4 = true) (hs5 : isSepCh s5 = true) (hs6 : isSepCh s6 = true)
    (hw1 : ∀ c ∈ ws1, isJsWS c = true) (hw2 : ∀ c ∈ ws2, isJsWS c = true)
    (hdash : isDashCh dash = true) :
    matchPairAt (d1 ++ (s1 :: (d2 ++ (s2 :: (d3 ++ (s3 :: (d4 ++ (ws1 ++ (dash ::
        (ws2 ++ (e1 ++ (s4 :: (e2 ++ (s5 :: (e3 ++ (s6 :: e4)))))))))))))))) =
      some (d1 ++ (s1 :: (d2 ++ (s2 :: (d3 ++ (s3 :: d4))))),
        e1 ++ (s4 :: (e2 ++ (s5 :: (e3 ++ (s6 :: e4)))))) := by
  have hh1 : headIsDigit (ws1 ++ (dash ::
      (ws2 ++ (e1 ++ (s4 :: (e2 ++ (s5 :: (e3 ++ (s6 :: e4))))))))) = false :=
    headIsDigit_ws_dash hw1 hdash
  have E1 : matchTimecode (d1 ++ (s1 :: (d2 ++ (s2 :: (d3 ++ (s3 :: (d4 ++ (ws1 ++ (dash ::
      (ws2 ++ (e1 ++ (s4 :: (e2 ++ (s5 :: (e3 ++ (s6 :: e4)))))))))))))))) =
      some (d1 ++ (s1 :: (d2 ++ (s2 :: (d3 ++ (s3 :: d4))))),
        ws1 ++ (dash :: (ws2 ++ (e1 ++ (s4 :: (e2 ++ (s5 :: (e3 ++ (s6 :: e4))))))))) :=
    matchTimecode_complete hd1 hd2 hd3 hd4 hs1 hs2 hs3 hh1
  have E2 : munchWS (ws1 ++ (dash ::
      (ws2 ++ (e1 ++ (s4 :: (e2 ++ (s5 :: (e3 ++ (s6 :: e4))))))))) =
      (ws1, dash :: (ws2 ++ (e1 ++ (s4 :: (e2 ++ (s5 :: (e3 ++ (s6 :: e4)))))))) :=
    munchWS_complete hw1 (dash_not_ws hdash)
  have E3 : munchDash (dash ::
      (ws2 ++ (e1 ++ (s4 :: (e2 ++ (s5 :: (e3 ++ (s6 :: e4)))))))) =
      some (dash, ws2 ++ (e1 ++ (s4 :: (e2 ++ (s5 :: (e3 ++ (s6 :: e4))))))) := by
    simp [munchDash, hdash]
  have E4 : munchWS (ws2 ++ (e1 ++ (s4 :: (e2 ++ (s5 :: (e3 ++ (s6 :: e4))))))) =
      (ws2, e1 ++ (s4 :: (e2 ++ (s5 :: (e3 ++ (s6 :: e4)))))) :=
    munchWS_complete hw2 (headIsWS_digit he1.1 he1.2.2)
  have E5 : matchTimecode (e1 ++ (s4 :: (e2 ++ (s5 :: (e3 ++ (s6 :: (e4 ++ []))))))) =
      some (e1 ++ (s4 :: (e2 ++ (s5 :: (e3 ++ (s6 :: e4))))), []) :=
    matchTimecode_complete he1 he2 he3 he4 hs4 hs5 hs6 rfl
  rw [List.append_nil] at E5
  simp only [matchPairAt, E1, Option.some_bind, E2, E3, E4, E5, Option.map_some']

theorem findMatch_of_matchPairAt {l : List Char} {m : List Char × List Char}
    (h0 : l ≠ []) (h : matchPairAt l = some m) : findMatch l = some m := by
  match l, h0 with
  | c :: t, _ => simp [findMatch, h]

/-- `splitP` recovers the components of an assembled timecode. -/
theorem splitP_mkTC {d1 d2 d3 d4 : List Char} {s1 s2 s3 : Char}
    (hf1 : ∀ c ∈ d1, isSepCh c = false) (hf2 : ∀ c ∈ d2, isSepCh c = false)
    (hf3 : ∀ c ∈ d3, isSepCh c = false) (hf4 : ∀ c ∈ d4, isSepCh c = false)
    (hs1 : isSepCh s1 = true) (hs2 : isSepCh s2 = true) (hs3 : isSepCh s3 = true) :
    splitP isSepCh (mkTC d1 s1 d2 s2 d3 s3 d4) = [d1, d2, d3, d4] := by
  unfold mkTC
  simp only [List.append_assoc, List.cons_append]
  rw [splitP_append _ hf1 hs1, splitP_append _ hf2 hs2, splitP_append _ hf3 hs3,
    splitP_nosep hf4]

/-- C9 amended: for every well-formed timecode pair, any choice of `;`/`:`
separators (mixed or uniform) produces the same match captures (the two
timecodes, with the same components) and the same converted timestamps as the
uniform-`;` pair; only the `indexOf`-based trailing-text extraction can
distinguish the separator characters (see the counterexample). -/
theorem c9_separator_invariance
    (d1 d2 d3 d4 e1 e2 e3 e4 ws1 ws2 : List Char)
    (s1 s2 s3 s4 s5 s6 dash : Char) (fps : ℚ)
    (hd1 : DigitComp d1) (hd2 : DigitComp d2) (hd3 : DigitComp d3) (hd4 : DigitComp d4)
    (he1 : DigitComp e1) (he2 : DigitComp e2) (he3 : DigitComp e3) (he4 : DigitComp e4)
    (hs1 : isSepCh s1 = true) (hs2 : isSepCh s2 = true) (hs3 : isSepCh s3 = true)
    (hs4 : isSepCh s4 = true) (hs5 : isSepCh s5 = true) (hs6 : isSepCh s6 = true)
    (hw1 : ∀ c ∈ ws1, isJsWS c = true) (hw2 : ∀ c ∈ ws2, isJsWS c = true)
    (hdash : isDashCh dash = true) (hfps : 0 < fps) :
    findMatch (mkTC d1 s1 d2 s2 d3 s3 d4 ++ ws1 ++ dash :: ws2 ++
        mkTC e1 s4 e2 s5 e3 s6 e4) =
      some (mkTC d1 s1 d2 s2 d3 s3 d4, mkTC e1 s4 e2 s5 e3 s6 e4) ∧
    convertTimecode (mkTC d1 s1 d2 s2 d3 s3 d4) fps =
      convertTimecode (mkTC d1 ';' d2 ';' d3 ';' d4) fps ∧
    convertTimecode (mkTC e1 s4 e2 s5 e3 s6 e4) fps =
      convertTimecode (mkTC e1 ';' e2 ';' e3 ';' e4) fps := by
  have hsemi : isSepCh ';' = true := by decide
  have f1 := fun x hx => digit_not_sep (hd1.2.2 x hx)
  have f2 := fun x hx => digit_not_sep (hd2.2.2 x hx)
  have f3 := fun x hx => digit_not_sep (hd3.2.2 x hx)
  have f4 := fun x hx => digit_not_sep (hd4.2.2 x hx)
  have g1 := fun x hx => digit_not_sep (he1.2.2 x hx)
  have g2 := fun x hx => digit_not_sep (he2.2.2 x hx)
  have g3 := fun x hx => digit_not_sep (he3.2.2 x hx)
  have g4 := fun x hx => digit_not_sep (he4.2.2 x hx)
  refine ⟨?_, ?_, ?_⟩
  · have hne : mkTC d1 s1 d2 s2 d3 s3 d4 ++ ws1 ++ dash :: ws2 ++
        mkTC e1 s4 e2 s5 e3 s6 e4 ≠ [] := by
      simp [mkTC]
    apply findMatch_of_matchPairAt hne
    unfold mkTC
    simp only [List.append_assoc, List.cons_append]
    exact matchPairAt_complete hd1 hd2 hd3 hd4 he1 he2 he3 he4
      hs1 hs2 hs3 hs4 hs5 hs6 hw1 hw2 hdash
  · have hA := splitP_mkTC f1 f2 f3 f4 hs1 hs2 hs3
    have hB := splitP_mkTC f1 f2 f3 f4 hsemi hsemi hsemi
    simp only [convertTimecode, hA, hB]
  · have hA := splitP_mkTC g1 g2 g3 g4 hs4 hs5 hs6
    have hB := splitP_mkTC g1 g2 g3 g4 hsemi hsemi hsemi
    simp only [convertTimecode, hA, hB]

/-- Witness for the amended C9 at the spec's mixed-separator example. -/
theorem c9_witness :
    findMatch (str "00:00:03;15 - 00;00;06:20") =
      some (str "00:00:03;15", str "00;00;06:20") ∧
    convertTimecode (str "00:00:03;15") 24 = convertTimecode (str "00;00;03;15") 24 ∧
    convertTimecode (str "00;00;06:20") 24 = convertTimecode (str "00;00;06;20") 24 :=
  c9_separator_invariance ['0', '0'] ['0', '0'] ['0', '3'] ['1', '5']
    ['0', '0'] ['0', '0'] ['0', '6'] ['2', '0'] [' '] [' ']
    ':' ':' ';' ';' ';' ':' '-' 24
    ⟨by decide, by decide, by decide⟩ ⟨by decide, by decide, by decide⟩
    ⟨by decide, by decide, by decide⟩ ⟨by decide, by decide, by decide⟩
    ⟨by decide, by decide, by decide⟩ ⟨by decide, by decide, by decide⟩
    ⟨by decide, by decide, by decide⟩ ⟨by decide, by decide, by decide⟩
    (by decide) (by decide) (by decide) (by decide) (by decide) (by decide)
    (by decide) (by decide) (by decide) (by norm_num)

end TC
